import Mathlib

/-!
Verification of the OAuth2 authorization-code core of the payaid-core
repository: the Redis-backed `Cache` helper (`lib/redis/client.ts`), the
authorization endpoint (`GET /api/oauth/authorize`), the token endpoint
(`POST /api/oauth/token`) and the userinfo endpoint (`GET /api/oauth/userinfo`),
shallowly embedded as pure Lean functions over an explicit store state.
-/

set_option maxHeartbeats 1000000
set_option maxRecDepth 4000

/-! ## JSON values

JavaScript JSON values as produced by `JSON.parse` and consumed by
`JSON.stringify`.  Numbers are modelled as integers (every numeric literal in
the OAuth core is an integer); strings are Unicode scalar sequences. -/

inductive Json where
  | jnull : Json
  | jbool (b : Bool) : Json
  | jnum (n : Int) : Json
  | jstr (s : String) : Json
  | jarr (items : List Json) : Json
  | jobj (entries : List (String × Json)) : Json
deriving Repr

/-! ## Serialization: JSON.stringify

Characters are emitted exactly as `JSON.stringify` does: strings are quoted
with `"`, the quote and backslash characters and the C0 control characters are
escaped (short escapes for \b \t \n \f \r, `\u00XX` otherwise), all other
characters are emitted literally; arrays and objects use no whitespace. -/

def decDigitChar (d : Nat) : Char :=
  match d with
  | 0 => '0' | 1 => '1' | 2 => '2' | 3 => '3' | 4 => '4'
  | 5 => '5' | 6 => '6' | 7 => '7' | 8 => '8' | _ => '9'

def natChars (n : Nat) : List Char :=
  if _h : n < 10 then [decDigitChar n]
  else natChars (n / 10) ++ [decDigitChar (n % 10)]
decreasing_by exact Nat.div_lt_self (by omega) (by omega)

def intChars (n : Int) : List Char :=
  if n < 0 then '-' :: natChars n.natAbs else natChars n.natAbs

def hexDigitOf (d : Nat) : Char :=
  match d with
  | 0 => '0' | 1 => '1' | 2 => '2' | 3 => '3' | 4 => '4'
  | 5 => '5' | 6 => '6' | 7 => '7' | 8 => '8' | 9 => '9'
  | 10 => 'a' | 11 => 'b' | 12 => 'c' | 13 => 'd' | 14 => 'e' | _ => 'f'

/-- Escape a single character the way `JSON.stringify` escapes characters
inside string literals. -/
def escChar (c : Char) : List Char :=
  if c = '"' then ['\\', '"']
  else if c = '\\' then ['\\', '\\']
  else if c = Char.ofNat 8 then ['\\', 'b']
  else if c = Char.ofNat 9 then ['\\', 't']
  else if c = Char.ofNat 10 then ['\\', 'n']
  else if c = Char.ofNat 12 then ['\\', 'f']
  else if c = Char.ofNat 13 then ['\\', 'r']
  else if c.toNat < 32 then
    ['\\', 'u', '0', '0', hexDigitOf (c.toNat / 16), hexDigitOf (c.toNat % 16)]
  else [c]

def escChars : List Char → List Char
  | [] => []
  | c :: cs => escChar c ++ escChars cs

def quoteChars (s : String) : List Char :=
  '"' :: escChars s.data ++ ['"']

mutual

def sj : Json → List Char
  | .jnull => ['n', 'u', 'l', 'l']
  | .jbool true => ['t', 'r', 'u', 'e']
  | .jbool false => ['f', 'a', 'l', 's', 'e']
  | .jnum n => intChars n
  | .jstr s => quoteChars s
  | .jarr xs => '[' :: sjElems xs ++ [']']
  | .jobj fs => '{' :: sjFields fs ++ ['}']

def sjElems : List Json → List Char
  | [] => []
  | [x] => sj x
  | x :: y :: t => sj x ++ ',' :: sjElems (y :: t)

def sjFields : List (String × Json) → List Char
  | [] => []
  | [(k, v)] => quoteChars k ++ ':' :: sj v
  | (k, v) :: f :: t => quoteChars k ++ ':' :: sj v ++ ',' :: sjFields (f :: t)

end

/-- Model of `JSON.stringify` restricted to defined JSON values. -/
def Json.jstringify (j : Json) : String := ⟨sj j⟩


/-! ## Parsing: JSON.parse

A recursive-descent parser with explicit fuel, covering exactly the grammar
that `Json.jstringify` emits (this is the only input the `Cache` helper ever
feeds to `JSON.parse`: every value read back out of the store was written by
`Cache.set`).  A parse failure is `none`, matching the `try { JSON.parse }`
use sites, which convert exceptions to `null`. -/

def isDig (c : Char) : Bool := 48 ≤ c.toNat && c.toNat ≤ 57

def hexVal (c : Char) : Option Nat :=
  if 48 ≤ c.toNat && c.toNat ≤ 57 then some (c.toNat - 48)
  else if 97 ≤ c.toNat && c.toNat ≤ 102 then some (c.toNat - 87)
  else if 65 ≤ c.toNat && c.toNat ≤ 70 then some (c.toNat - 55)
  else none

def parseDigits : List Char → List Char × List Char
  | [] => ([], [])
  | c :: cs =>
    if isDig c then
      let p := parseDigits cs
      (c :: p.1, p.2)
    else ([], c :: cs)

def digitsVal (ds : List Char) : Nat :=
  ds.foldl (fun a c => a * 10 + (c.toNat - 48)) 0

/-- Parse the body of a string literal (after the opening quote), returning
the decoded characters and the input after the closing quote. -/
def parseStrBody : List Char → Option (List Char × List Char)
  | [] => none
  | c :: rest =>
    if c = '"' then some ([], rest)
    else if c = '\\' then
      match rest with
      | '"' :: r => (parseStrBody r).map (fun p => ('"' :: p.1, p.2))
      | '\\' :: r => (parseStrBody r).map (fun p => ('\\' :: p.1, p.2))
      | '/' :: r => (parseStrBody r).map (fun p => ('/' :: p.1, p.2))
      | 'b' :: r => (parseStrBody r).map (fun p => (Char.ofNat 8 :: p.1, p.2))
      | 't' :: r => (parseStrBody r).map (fun p => (Char.ofNat 9 :: p.1, p.2))
      | 'n' :: r => (parseStrBody r).map (fun p => (Char.ofNat 10 :: p.1, p.2))
      | 'f' :: r => (parseStrBody r).map (fun p => (Char.ofNat 12 :: p.1, p.2))
      | 'r' :: r => (parseStrBody r).map (fun p => (Char.ofNat 13 :: p.1, p.2))
      | 'u' :: h1 :: h2 :: h3 :: h4 :: r =>
        match hexVal h1, hexVal h2, hexVal h3, hexVal h4 with
        | some a, some b, some c', some d =>
          let v := ((a * 16 + b) * 16 + c') * 16 + d
          if h : v.isValidChar then
            (parseStrBody r).map (fun p => (Char.ofNatAux v h :: p.1, p.2))
          else none
        | _, _, _, _ => none
      | _ => none
    else (parseStrBody rest).map (fun p => (c :: p.1, p.2))

mutual

def parseJ : Nat → List Char → Option (Json × List Char)
  | 0, _ => none
  | fuel + 1, cs =>
    match cs with
    | [] => none
    | c :: rest =>
      if c = 'n' then
        match rest with
        | 'u' :: 'l' :: 'l' :: r => some (.jnull, r)
        | _ => none
      else if c = 't' then
        match rest with
        | 'r' :: 'u' :: 'e' :: r => some (.jbool true, r)
        | _ => none
      else if c = 'f' then
        match rest with
        | 'a' :: 'l' :: 's' :: 'e' :: r => some (.jbool false, r)
        | _ => none
      else if c = '"' then
        (parseStrBody rest).map (fun p => (.jstr ⟨p.1⟩, p.2))
      else if c = '-' then
        match parseDigits rest with
        | ([], _) => none
        | (ds, rest') => some (.jnum (-(digitsVal ds : Int)), rest')
      else if c = '[' then
        match rest with
        | ']' :: r => some (.jarr [], r)
        | _ => (parseElems fuel rest).map (fun p => (.jarr p.1, p.2))
      else if c = '{' then
        match rest with
        | '}' :: r => some (.jobj [], r)
        | _ => (parseFields fuel rest).map (fun p => (.jobj p.1, p.2))
      else if isDig c then
        let p := parseDigits (c :: rest)
        some (.jnum (digitsVal p.1 : Int), p.2)
      else none

def parseElems : Nat → List Char → Option (List Json × List Char)
  | 0, _ => none
  | fuel + 1, cs =>
    match parseJ fuel cs with
    | none => none
    | some (j, rest) =>
      match rest with
      | ']' :: rest' => some ([j], rest')
      | ',' :: rest' => (parseElems fuel rest').map (fun p => (j :: p.1, p.2))
      | _ => none

def parseFields : Nat → List Char → Option (List (String × Json) × List Char)
  | 0, _ => none
  | fuel + 1, cs =>
    match cs with
    | '"' :: cs' =>
      match parseStrBody cs' with
      | none => none
      | some (k, rest) =>
        match rest with
        | ':' :: rest' =>
          match parseJ fuel rest' with
          | none => none
          | some (v, rest'') =>
            match rest'' with
            | '}' :: r => some ([(⟨k⟩, v)], r)
            | ',' :: r => (parseFields fuel r).map (fun p => ((⟨k⟩, v) :: p.1, p.2))
            | _ => none
        | _ => none
    | _ => none

end

/-- Model of `JSON.parse`, requiring the whole input to be consumed; `none`
models a thrown `SyntaxError`. -/
def Json.parse (s : String) : Option Json :=
  match parseJ (s.length + 1) s.data with
  | some (j, []) => some j
  | _ => none

/-! ## Round-trip lemmas for the JSON codec -/

theorem decDigitChar_toNat {d : Nat} (h : d < 10) : (decDigitChar d).toNat = 48 + d := by
  interval_cases d <;> rfl

theorem isDig_decDigitChar {d : Nat} (h : d < 10) : isDig (decDigitChar d) = true := by
  interval_cases d <;> rfl

theorem natChars_ne_nil (n : Nat) : natChars n ≠ [] := by
  unfold natChars
  split
  · simp
  · simp

theorem natChars_digits (n : Nat) : ∀ c ∈ natChars n, isDig c = true := by
  induction n using Nat.strong_induction_on with
  | _ n ih =>
    unfold natChars
    split
    · next h =>
      intro c hc
      simp only [List.mem_singleton] at hc
      subst hc
      exact isDig_decDigitChar h
    · next h =>
      intro c hc
      rcases List.mem_append.mp hc with h1 | h1
      · exact ih (n / 10) (Nat.div_lt_self (by omega) (by omega)) c h1
      · simp only [List.mem_singleton] at h1
        subst h1
        exact isDig_decDigitChar (Nat.mod_lt _ (by omega))

theorem digitsVal_append_one (ds : List Char) (c : Char) :
    digitsVal (ds ++ [c]) = 10 * digitsVal ds + (c.toNat - 48) := by
  simp only [digitsVal, List.foldl_append, List.foldl_cons, List.foldl_nil]
  omega

theorem digitsVal_natChars (n : Nat) : digitsVal (natChars n) = n := by
  induction n using Nat.strong_induction_on with
  | _ n ih =>
    unfold natChars
    split
    · next h =>
      simp [digitsVal, decDigitChar_toNat h]
    · next h =>
      rw [digitsVal_append_one, ih (n / 10) (Nat.div_lt_self (by omega) (by omega)),
        decDigitChar_toNat (Nat.mod_lt _ (by omega))]
      omega

/-- Does the input start with a decimal digit?  Number parsing is
maximal-munch, so the round-trip lemma needs the remainder not to begin with
a digit. -/
def digHead : List Char → Bool
  | [] => false
  | c :: _ => isDig c

theorem parseDigits_spec (ds rest : List Char) (hds : ∀ c ∈ ds, isDig c = true)
    (hrest : digHead rest = false) : parseDigits (ds ++ rest) = (ds, rest) := by
  induction ds with
  | nil =>
    cases rest with
    | nil => rfl
    | cons c cs =>
      simp only [digHead] at hrest
      simp [parseDigits, hrest]
  | cons c cs ih =>
    have hc : isDig c = true := hds c (by simp)
    simp only [List.cons_append, parseDigits, hc, if_true]
    rw [show cs.append rest = cs ++ rest from rfl, ih (fun x hx => hds x (by simp [hx]))]

theorem ofNatAux_toNat (c : Char) (h : Nat.isValidChar c.toNat) :
    Char.ofNatAux c.toNat h = c := by
  have h2 := Char.ofNat_toNat c
  unfold Char.ofNat at h2
  rwa [dif_pos h] at h2

theorem hexVal_hexDigitOf {d : Nat} (h : d < 16) :
    hexVal (hexDigitOf d) = some d := by
  interval_cases d <;> rfl

theorem parseStrBody_escChar (c : Char) (t : List Char) :
    parseStrBody (escChar c ++ t) = (parseStrBody t).map (fun p => (c :: p.1, p.2)) := by
  by_cases h1 : c = '"'
  · subst h1; rfl
  by_cases h2 : c = '\\'
  · subst h2; rfl
  by_cases h3 : c = Char.ofNat 8
  · subst h3; rfl
  by_cases h4 : c = Char.ofNat 9
  · subst h4; rfl
  by_cases h5 : c = Char.ofNat 10
  · subst h5; rfl
  by_cases h6 : c = Char.ofNat 12
  · subst h6; rfl
  by_cases h7 : c = Char.ofNat 13
  · subst h7; rfl
  by_cases h8 : c.toNat < 32
  · have he : escChar c =
        ['\\', 'u', '0', '0', hexDigitOf (c.toNat / 16), hexDigitOf (c.toNat % 16)] := by
      simp [escChar, h1, h2, h3, h4, h5, h6, h7, h8]
    have d1 : hexVal (hexDigitOf (c.toNat / 16)) = some (c.toNat / 16) :=
      hexVal_hexDigitOf (by omega)
    have d2 : hexVal (hexDigitOf (c.toNat % 16)) = some (c.toNat % 16) :=
      hexVal_hexDigitOf (by omega)
    have hv : (((0 * 16 + 0) * 16 + c.toNat / 16) * 16 + c.toNat % 16) = c.toNat := by omega
    have hvalid : Nat.isValidChar c.toNat := Or.inl (by omega)
    rw [he]
    show parseStrBody ('\\' :: 'u' :: '0' :: '0' :: hexDigitOf (c.toNat / 16) ::
      hexDigitOf (c.toNat % 16) :: t) = _
    simp only [parseStrBody, d1, d2, if_neg (show ('\\' : Char) ≠ '"' by decide), if_true,
      show hexVal '0' = some 0 from rfl]
    simp only [hv]
    rw [dif_pos hvalid, ofNatAux_toNat c hvalid]
  · have he : escChar c = [c] := by
      simp [escChar, h1, h2, h3, h4, h5, h6, h7, h8]
    rw [he]
    show parseStrBody (c :: t) = _
    conv_lhs => unfold parseStrBody
    rw [if_neg h1, if_neg h2]

theorem parseStrBody_escChars (l : List Char) (rest : List Char) :
    parseStrBody (escChars l ++ '"' :: rest) = some (l, rest) := by
  induction l with
  | nil =>
    show parseStrBody ('"' :: rest) = some ([], rest)
    conv_lhs => unfold parseStrBody
    rw [if_pos rfl]
  | cons c cs ih =>
    simp only [escChars, List.append_assoc, parseStrBody_escChar, ih]
    rfl

/-! Fuel measure: enough `parseJ` fuel to reparse a stringified value. -/

mutual

def fj : Json → Nat
  | .jnull => 1
  | .jbool _ => 1
  | .jnum _ => 1
  | .jstr _ => 1
  | .jarr xs => fe xs + 1
  | .jobj fs => ff fs + 1

def fe : List Json → Nat
  | [] => 1
  | [x] => fj x + 1
  | x :: y :: t => max (fj x) (fe (y :: t)) + 1

def ff : List (String × Json) → Nat
  | [] => 1
  | [(_, v)] => fj v + 1
  | (_, v) :: f :: t => max (fj v) (ff (f :: t)) + 1

end

theorem fj_pos (j : Json) : 1 ≤ fj j := by
  cases j <;> simp [fj]

theorem fe_pos (xs : List Json) : 1 ≤ fe xs := by
  match xs with
  | [] => simp [fe]
  | [x] => simp [fe]
  | x :: y :: t => simp [fe]

theorem ff_pos (fs : List (String × Json)) : 1 ≤ ff fs := by
  match fs with
  | [] => simp [ff]
  | [(k, v)] => simp [ff]
  | (k, v) :: f :: t => simp [ff]

theorem isDig_ne_bracket {c : Char} (h : isDig c = true) :
    c ≠ ']' ∧ c ≠ '}' ∧ c ≠ 'n' ∧ c ≠ 't' ∧ c ≠ 'f' ∧ c ≠ '"' ∧ c ≠ '-' ∧ c ≠ '[' ∧ c ≠ '{' := by
  simp only [isDig, Bool.and_eq_true, decide_eq_true_eq] at h
  refine ⟨?_, ?_, ?_, ?_, ?_, ?_, ?_, ?_, ?_⟩ <;>
    (intro he; subst he; revert h; decide)

/-- Every serialized JSON value starts with a character that is not `]` and
not `}` (it is a letter, quote, minus, digit, or open bracket). -/
theorem sj_head (j : Json) : ∃ c cs, sj j = c :: cs ∧ c ≠ ']' ∧ c ≠ '}' := by
  cases j with
  | jnull => exact ⟨'n', _, rfl, by decide, by decide⟩
  | jbool b =>
    cases b
    · exact ⟨'f', _, rfl, by decide, by decide⟩
    · exact ⟨'t', _, rfl, by decide, by decide⟩
  | jnum n =>
    show ∃ c cs, intChars n = c :: cs ∧ c ≠ ']' ∧ c ≠ '}'
    unfold intChars
    split
    · exact ⟨'-', _, rfl, by decide, by decide⟩
    · obtain ⟨c, cs, hc⟩ := List.exists_cons_of_ne_nil (natChars_ne_nil n.natAbs)
      have hd : isDig c = true := natChars_digits _ c (by rw [hc]; simp)
      exact ⟨c, cs, hc, (isDig_ne_bracket hd).1, (isDig_ne_bracket hd).2.1⟩
  | jstr s => exact ⟨'"', _, rfl, by decide, by decide⟩
  | jarr xs => exact ⟨'[', _, rfl, by decide, by decide⟩
  | jobj fs => exact ⟨'{', _, rfl, by decide, by decide⟩

mutual

theorem fj_le : ∀ j : Json, fj j ≤ (sj j).length
  | .jnull => by simp [fj, sj]
  | .jbool b => by cases b <;> simp [fj, sj]
  | .jnum n => by
    show fj (.jnum n) ≤ (intChars n).length
    unfold fj intChars
    split
    · simp
    · have h := List.length_pos.mpr (natChars_ne_nil n.natAbs)
      omega
  | .jstr s => by simp [fj, sj, quoteChars]
  | .jarr xs => by
    have h := fe_le xs
    simp only [fj, sj, List.length_cons, List.length_append]
    simp
    omega
  | .jobj fs => by
    have h := ff_le fs
    simp only [fj, sj, List.length_cons, List.length_append]
    simp
    omega

theorem fe_le : ∀ xs : List Json, fe xs ≤ (sjElems xs).length + 1
  | [] => by simp [fe, sjElems]
  | [x] => by
    have h := fj_le x
    simp only [fe, sjElems]
    omega
  | x :: y :: t => by
    have h1 := fj_le x
    have h2 := fe_le (y :: t)
    simp only [fe, sjElems, List.length_append, List.length_cons]
    omega

theorem ff_le : ∀ fs : List (String × Json), ff fs ≤ (sjFields fs).length + 1
  | [] => by simp [ff, sjFields]
  | [(k, v)] => by
    have h := fj_le v
    simp only [ff, sjFields, quoteChars, List.length_append, List.length_cons]
    omega
  | (k, v) :: f :: t => by
    have h1 := fj_le v
    have h2 := ff_le (f :: t)
    simp only [ff, sjFields, quoteChars, List.length_append, List.length_cons]
    omega

end

theorem parseStrBody_quote (l rest : List Char) :
    parseStrBody ((escChars l ++ ['"']) ++ rest) = some (l, rest) := by
  rw [List.append_assoc]
  exact parseStrBody_escChars l rest

theorem parseJ_cons (fuel : Nat) (c : Char) (X : List Char) :
    parseJ (fuel + 1) (c :: X) =
      if c = 'n' then
        match X with
        | 'u' :: 'l' :: 'l' :: r => some (.jnull, r)
        | _ => none
      else if c = 't' then
        match X with
        | 'r' :: 'u' :: 'e' :: r => some (.jbool true, r)
        | _ => none
      else if c = 'f' then
        match X with
        | 'a' :: 'l' :: 's' :: 'e' :: r => some (.jbool false, r)
        | _ => none
      else if c = '"' then
        (parseStrBody X).map (fun p => (.jstr ⟨p.1⟩, p.2))
      else if c = '-' then
        match parseDigits X with
        | ([], _) => none
        | (ds, rest') => some (.jnum (-(digitsVal ds : Int)), rest')
      else if c = '[' then
        match X with
        | ']' :: r => some (.jarr [], r)
        | _ => (parseElems fuel X).map (fun p => (.jarr p.1, p.2))
      else if c = '{' then
        match X with
        | '}' :: r => some (.jobj [], r)
        | _ => (parseFields fuel X).map (fun p => (.jobj p.1, p.2))
      else if isDig c then
        let p := parseDigits (c :: X)
        some (.jnum (digitsVal p.1 : Int), p.2)
      else none := rfl

theorem parseElems_step (fuel : Nat) (cs : List Char) :
    parseElems (fuel + 1) cs =
      match parseJ fuel cs with
      | none => none
      | some (j, rest) =>
        match rest with
        | ']' :: rest' => some ([j], rest')
        | ',' :: rest' => (parseElems fuel rest').map (fun p => (j :: p.1, p.2))
        | _ => none := rfl

theorem parseFields_step (fuel : Nat) (cs : List Char) :
    parseFields (fuel + 1) cs =
      match cs with
      | '"' :: cs' =>
        match parseStrBody cs' with
        | none => none
        | some (k, rest) =>
          match rest with
          | ':' :: rest' =>
            match parseJ fuel rest' with
            | none => none
            | some (v, rest'') =>
              match rest'' with
              | '}' :: r => some ([(⟨k⟩, v)], r)
              | ',' :: r => (parseFields fuel r).map (fun p => ((⟨k⟩, v) :: p.1, p.2))
              | _ => none
          | _ => none
      | _ => none := rfl

theorem parseFields_step2 (fuel : Nat) (cs' : List Char) :
    parseFields (fuel + 1) ('"' :: cs') =
      match parseStrBody cs' with
      | none => none
      | some (k, rest) =>
        match rest with
        | ':' :: rest' =>
          match parseJ fuel rest' with
          | none => none
          | some (v, rest'') =>
            match rest'' with
            | '}' :: r => some ([(⟨k⟩, v)], r)
            | ',' :: r => (parseFields fuel r).map (fun p => ((⟨k⟩, v) :: p.1, p.2))
            | _ => none
        | _ => none := rfl

set_option maxHeartbeats 2000000 in
theorem parse_sj_aux : ∀ fuel : Nat,
    (∀ j rest, fj j ≤ fuel → digHead rest = false →
      parseJ fuel (sj j ++ rest) = some (j, rest)) ∧
    (∀ xs rest, xs ≠ [] → fe xs ≤ fuel →
      parseElems fuel (sjElems xs ++ ']' :: rest) = some (xs, rest)) ∧
    (∀ fs rest, fs ≠ [] → ff fs ≤ fuel →
      parseFields fuel (sjFields fs ++ '}' :: rest) = some (fs, rest)) := by
  intro fuel
  induction fuel with
  | zero =>
    refine ⟨?_, ?_, ?_⟩
    · intro j rest hf _; exact absurd hf (by have := fj_pos j; omega)
    · intro xs rest _ hf; exact absurd hf (by have := fe_pos xs; omega)
    · intro fs rest _ hf; exact absurd hf (by have := ff_pos fs; omega)
  | succ fuel ih =>
    obtain ⟨ihJ, ihE, ihF⟩ := ih
    refine ⟨?_, ?_, ?_⟩
    · intro j rest hf hr
      cases j with
      | jnull => rfl
      | jbool b => cases b <;> rfl
      | jnum n =>
        show parseJ (fuel + 1) (intChars n ++ rest) = _
        by_cases hn : n < 0
        · rw [intChars, if_pos hn]
          obtain ⟨c, cs, hc⟩ := List.exists_cons_of_ne_nil (natChars_ne_nil n.natAbs)
          have hds := parseDigits_spec (natChars n.natAbs) rest (natChars_digits _) hr
          show parseJ (fuel + 1) ('-' :: (natChars n.natAbs ++ rest)) = _
          rw [parseJ_cons, if_neg (by decide), if_neg (by decide), if_neg (by decide),
            if_neg (by decide), if_pos rfl, hds, hc]
          show some (Json.jnum (-(digitsVal (c :: cs) : Int)), rest) = _
          rw [← hc, digitsVal_natChars]
          have habs : -((n.natAbs : Int)) = n := by omega
          rw [habs]
        · rw [intChars, if_neg hn]
          obtain ⟨c, cs, hc⟩ := List.exists_cons_of_ne_nil (natChars_ne_nil n.natAbs)
          have hd : isDig c = true := natChars_digits _ c (by rw [hc]; simp)
          have hne := isDig_ne_bracket hd
          have hds := parseDigits_spec (natChars n.natAbs) rest (natChars_digits _) hr
          rw [hc] at hds ⊢
          show parseJ (fuel + 1) (c :: (cs ++ rest)) = _
          rw [parseJ_cons, if_neg hne.2.2.1, if_neg hne.2.2.2.1, if_neg hne.2.2.2.2.1,
            if_neg hne.2.2.2.2.2.1, if_neg hne.2.2.2.2.2.2.1, if_neg hne.2.2.2.2.2.2.2.1,
            if_neg hne.2.2.2.2.2.2.2.2, if_pos hd]
          show some (Json.jnum (digitsVal (parseDigits ((c :: cs) ++ rest)).1 : Int),
            (parseDigits ((c :: cs) ++ rest)).2) = _
          rw [hds]
          show some (Json.jnum (digitsVal (c :: cs) : Int), rest) = _
          rw [← hc, digitsVal_natChars]
          have habs : ((n.natAbs : Int)) = n := by omega
          rw [habs]
      | jstr s =>
        show (parseStrBody ((escChars s.data ++ ['"']) ++ rest)).map
          (fun p => (Json.jstr ⟨p.1⟩, p.2)) = some (.jstr s, rest)
        rw [parseStrBody_quote]
        rfl
      | jarr xs =>
        cases xs with
        | nil => rfl
        | cons x t =>
          have hfe : fe (x :: t) ≤ fuel := by
            simp only [fj] at hf; omega
          show parseJ (fuel + 1) ('[' :: ((sjElems (x :: t) ++ [']']) ++ rest)) = _
          rw [parseJ_cons, if_neg (by decide), if_neg (by decide), if_neg (by decide),
            if_neg (by decide), if_neg (by decide), if_pos rfl]
          obtain ⟨c0, cs0, hx, hne1, hne2⟩ := sj_head x
          split
          · next r heq =>
            exfalso
            have hcons : ∃ W, sjElems (x :: t) = c0 :: W := by
              cases t with
              | nil => exact ⟨cs0, hx⟩
              | cons y t' =>
                refine ⟨cs0 ++ ',' :: sjElems (y :: t'), ?_⟩
                show sj x ++ ',' :: sjElems (y :: t') = _
                rw [hx]; rfl
            obtain ⟨W, hW⟩ := hcons
            rw [hW] at heq
            simp only [List.cons_append] at heq
            injection heq with h1 _
            exact hne1 h1
          · next hno =>
            rw [List.append_assoc]
            show (parseElems fuel (sjElems (x :: t) ++ ']' :: rest)).map
              (fun p => (Json.jarr p.1, p.2)) = _
            rw [ihE (x :: t) rest (by simp) hfe]
            rfl
      | jobj fs =>
        cases fs with
        | nil => rfl
        | cons f t =>
          obtain ⟨k, v⟩ := f
          have hff : ff ((k, v) :: t) ≤ fuel := by
            simp only [fj] at hf; omega
          show parseJ (fuel + 1) ('{' :: ((sjFields ((k, v) :: t) ++ ['}']) ++ rest)) = _
          rw [parseJ_cons, if_neg (by decide), if_neg (by decide), if_neg (by decide),
            if_neg (by decide), if_neg (by decide), if_neg (by decide), if_pos rfl]
          split
          · next r heq =>
            exfalso
            have hcons : ∃ W, sjFields ((k, v) :: t) = '"' :: W := by
              cases t with
              | nil => exact ⟨escChars k.data ++ ['"'] ++ ':' :: sj v, by
                  show quoteChars k ++ ':' :: sj v = _
                  simp [quoteChars]⟩
              | cons f2 t2 => exact ⟨escChars k.data ++ ['"'] ++ ':' :: sj v ++
                  ',' :: sjFields (f2 :: t2), by
                  show quoteChars k ++ ':' :: sj v ++ ',' :: sjFields (f2 :: t2) = _
                  simp [quoteChars]⟩
            obtain ⟨W, hW⟩ := hcons
            rw [hW] at heq
            simp only [List.cons_append] at heq
            injection heq with h1 _
            exact absurd h1 (by decide)
          · next hno =>
            rw [List.append_assoc]
            show (parseFields fuel (sjFields ((k, v) :: t) ++ '}' :: rest)).map
              (fun p => (Json.jobj p.1, p.2)) = _
            rw [ihF ((k, v) :: t) rest (by simp) hff]
            rfl
    · intro xs rest hne hf
      cases xs with
      | nil => exact absurd rfl hne
      | cons x t =>
        cases t with
        | nil =>
          have hfx : fj x ≤ fuel := by simp only [fe] at hf; omega
          have hx := ihJ x (']' :: rest) hfx (by rfl)
          rw [parseElems_step, show sjElems [x] = sj x from rfl, hx]
          rfl
        | cons y t' =>
          have hb : fj x ≤ fuel ∧ fe (y :: t') ≤ fuel := by
            simp only [fe] at hf
            omega
          have hx := ihJ x (',' :: (sjElems (y :: t') ++ ']' :: rest)) hb.1 (by rfl)
          have hrec := ihE (y :: t') rest (by simp) hb.2
          have hS : sjElems (x :: y :: t') ++ ']' :: rest =
              sj x ++ (',' :: (sjElems (y :: t') ++ ']' :: rest)) := by
            show (sj x ++ ',' :: sjElems (y :: t')) ++ ']' :: rest = _
            simp
          rw [parseElems_step, hS, hx]
          show (parseElems fuel (sjElems (y :: t') ++ ']' :: rest)).map
            (fun p => (x :: p.1, p.2)) = _
          rw [hrec]
          rfl
    · intro fs rest hne hf
      cases fs with
      | nil => exact absurd rfl hne
      | cons f t =>
        obtain ⟨k, v⟩ := f
        cases t with
        | nil =>
          have hfv : fj v ≤ fuel := by simp only [ff] at hf; omega
          have hv := ihJ v ('}' :: rest) hfv (by rfl)
          have hS : sjFields [(k, v)] ++ '}' :: rest =
              '"' :: ((escChars k.data ++ ['"']) ++ (':' :: (sj v ++ '}' :: rest))) := by
            show (quoteChars k ++ ':' :: sj v) ++ '}' :: rest = _
            simp [quoteChars]
          rw [hS, parseFields_step2, parseStrBody_quote]
          show (match parseJ fuel (sj v ++ '}' :: rest) with
            | none => none
            | some (v, rest2) =>
              match rest2 with
              | '}' :: r => some ([((⟨k.data⟩ : String), v)], r)
              | ',' :: r => (parseFields fuel r).map (fun p => (((⟨k.data⟩ : String), v) :: p.1, p.2))
              | _ => none) = some ([(k, v)], rest)
          rw [hv]
          rfl
        | cons f2 t2 =>
          have hb : fj v ≤ fuel ∧ ff (f2 :: t2) ≤ fuel := by
            simp only [ff] at hf
            omega
          have hv := ihJ v (',' :: (sjFields (f2 :: t2) ++ '}' :: rest)) hb.1 (by rfl)
          have hrec := ihF (f2 :: t2) rest (by simp) hb.2
          have hS : sjFields ((k, v) :: f2 :: t2) ++ '}' :: rest =
              '"' :: ((escChars k.data ++ ['"']) ++
                (':' :: (sj v ++ ',' :: (sjFields (f2 :: t2) ++ '}' :: rest)))) := by
            show (quoteChars k ++ ':' :: sj v ++ ',' :: sjFields (f2 :: t2)) ++ '}' :: rest = _
            simp [quoteChars]
          rw [hS, parseFields_step2, parseStrBody_quote]
          show (match parseJ fuel (sj v ++ ',' :: (sjFields (f2 :: t2) ++ '}' :: rest)) with
            | none => none
            | some (v, rest2) =>
              match rest2 with
              | '}' :: r => some ([((⟨k.data⟩ : String), v)], r)
              | ',' :: r => (parseFields fuel r).map (fun p => (((⟨k.data⟩ : String), v) :: p.1, p.2))
              | _ => none) = some ((k, v) :: f2 :: t2, rest)
          rw [hv]
          show (parseFields fuel (sjFields (f2 :: t2) ++ '}' :: rest)).map
            (fun p => (((⟨k.data⟩ : String), v) :: p.1, p.2)) = _
          rw [hrec]
          rfl

theorem parse_stringify (j : Json) : Json.parse (Json.jstringify j) = some j := by
  have h := (parse_sj_aux ((sj j).length + 1)).1 j []
    (le_trans (fj_le j) (by omega)) rfl
  rw [List.append_nil] at h
  show (match parseJ ((String.mk (sj j)).length + 1) (String.mk (sj j)).data with
    | some (j, []) => some j
    | _ => none) = some j
  rw [show (String.mk (sj j)).length = (sj j).length from rfl,
    show (String.mk (sj j)).data = sj j from rfl, h]

/-! ## JavaScript value semantics

Helpers mirroring the JavaScript operations the route handlers perform on
parsed JSON values: property access, truthiness, strict equality, `||`
defaulting, and template-literal interpolation.  `Option Json` represents a
possibly-`undefined` JavaScript value (`none` = `undefined`). -/

def lookupField : List (String × Json) → String → Option Json
  | [], _ => none
  | (k', v) :: t, k => if k' = k then some v else lookupField t k

/-- Property access `o.k` on a JavaScript value: only objects have own
properties; access on a string, number, array or boolean yields `undefined`
for the payload keys used by the routes. -/
def getPropJ : Json → String → Option Json
  | .jobj fs, k => lookupField fs k
  | _, _ => none

def getProp (v : Option Json) (k : String) : Option Json :=
  v.bind (fun j => getPropJ j k)

/-- JavaScript truthiness of a possibly-undefined JSON value. -/
def truthy : Option Json → Bool
  | none => false
  | some .jnull => false
  | some (.jbool b) => b
  | some (.jnum n) => decide (n ≠ 0)
  | some (.jstr s) => decide (s ≠ "")
  | some (.jarr _) => true
  | some (.jobj _) => true

/-- Strict equality (`===`) between two possibly-undefined values.  Arrays and
objects compare by reference in JavaScript; the routes only ever compare a
request-body value against a freshly parsed store value or a configuration
string, which are never the same reference, so composite values compare
unequal. -/
def primEq : Json → Json → Bool
  | .jnull, .jnull => true
  | .jbool a, .jbool b => a == b
  | .jnum a, .jnum b => a == b
  | .jstr a, .jstr b => a == b
  | _, _ => false

def jsStrictEq : Option Json → Option Json → Bool
  | none, none => true
  | some a, some b => primEq a b
  | _, _ => false

/-! String conversion of a defined JSON value (`String(v)` semantics; objects
print as `[object Object]`, arrays join their elements with commas, `null`
inside an array prints as the empty string). -/

mutual

def jsTemplateJ : Json → String
  | .jnull => "null"
  | .jbool true => "true"
  | .jbool false => "false"
  | .jnum n => ⟨intChars n⟩
  | .jstr s => s
  | .jarr xs => String.intercalate "," (jsTemplateList xs)
  | .jobj _ => "[object Object]"

def jsTemplateList : List Json → List String
  | [] => []
  | .jnull :: t => "" :: jsTemplateList t
  | e :: t => jsTemplateJ e :: jsTemplateList t

end

/-- Template-literal interpolation of a JavaScript value, as in
`oauth:code:` + `${code}`. -/
def jsTemplate : Option Json → String
  | none => "undefined"
  | some j => jsTemplateJ j

/-- The `x || d` idiom on a possibly-null string column: `null`, `undefined`
and the empty string all fall back to the default. -/
def jsOrStr (v : Option String) (d : String) : String :=
  match v with
  | none => d
  | some s => if s = "" then d else s

/-! ## Ephemeral store model (`lib/redis/client.ts`, class `Cache`)

The backing Redis keyspace is a list of keys with raw string values and
absolute expiry times.  `Cache.get` races the read against a 100 ms timer and
resolves to `null` on timeout or on any thrown error (including a
`JSON.parse` failure); `Cache.set` and `Cache.delete` swallow every error
("Silently fail - Redis is optional"), modelled by per-key fault flags: a
failed write or delete leaves the keyspace unchanged and reports nothing. -/

structure StoreEntry where
  raw : String
  expiry : Option Nat
deriving Repr, DecidableEq

abbrev Store := List (String × StoreEntry)

def storeLookup : Store → String → Option StoreEntry
  | [], _ => none
  | (k', e) :: t, k => if k' = k then some e else storeLookup t k

def storeErase (s : Store) (k : String) : Store :=
  match s with
  | [] => []
  | (k', e) :: t => if k' = k then storeErase t k else (k', e) :: storeErase t k

def storePut (s : Store) (k : String) (e : StoreEntry) : Store :=
  (k, e) :: storeErase s k

/-- Request-handling context: the store keyspace, the current time in
seconds, the observed latency of the backing `GET` per key in milliseconds,
and per-key fault flags for reads, writes and deletes. -/
structure CacheCtx where
  store : Store
  now : Nat
  getLatency : String → Nat
  getError : String → Bool
  setFails : String → Bool
  delFails : String → Bool

/-- Fault-free context at a given store and time. -/
def mkCtx (s : Store) (now : Nat) : CacheCtx :=
  ⟨s, now, fun _ => 0, fun _ => false, fun _ => false, fun _ => false⟩

def entryLive (e : StoreEntry) (now : Nat) : Bool :=
  match e.expiry with
  | none => true
  | some t => decide (now < t)

/-- `Cache.get`: `Promise.race` of the Redis `GET` against a 100 ms timer
resolving `null`; a thrown error resolves `null` via the `catch`; a present
unexpired raw value is fed to `JSON.parse` (`value ? JSON.parse(value) :
null`, so an empty raw string also yields `null`, and a parse error is
caught to `null`). -/
def Cache.get (ctx : CacheCtx) (k : String) : Option Json :=
  if 100 < ctx.getLatency k then none
  else if ctx.getError k then none
  else
    match storeLookup ctx.store k with
    | none => none
    | some e =>
      if entryLive e ctx.now then
        if e.raw = "" then none else Json.parse e.raw
      else none

/-- `Cache.set`: serializes the value with `JSON.stringify` and stores it via
`SETEX` with the requested TTL (absolute expiry `now + ttl`); all errors are
swallowed, so a failed write leaves the keyspace unchanged and the caller
cannot observe the failure. -/
def Cache.set (ctx : CacheCtx) (k : String) (v : Json) (ttlSeconds : Option Nat) : Store :=
  if ctx.setFails k then ctx.store
  else storePut ctx.store k ⟨Json.jstringify v, ttlSeconds.map (fun t => ctx.now + t)⟩

/-- `Cache.delete`: `DEL`, with errors swallowed. -/
def Cache.delete (ctx : CacheCtx) (k : String) : Store :=
  if ctx.delFails k then ctx.store
  else storeErase ctx.store k

/-! ## Domain records

The token claims signed by `signToken` and recovered by `verifyToken`
(`@payaid/auth`), and the user/tenant row returned by
`prisma.user.findUnique({ include: { tenant: true } })`. -/

structure Claims where
  userId : String
  tenantId : String
  email : String
  role : String
  licensedModules : List String
  subscriptionTier : String
deriving Repr, DecidableEq

structure TenantRec where
  name : String
  subdomain : String
  licensedModules : Option (List String)
  subscriptionTier : Option String
deriving Repr, DecidableEq

structure UserRec where
  id : String
  email : String
  name : String
  role : String
  emailVerified : Option Bool
  tenantId : String
  tenant : TenantRec
deriving Repr, DecidableEq

/-- An HTTP JSON response: status code and body. -/
structure Resp where
  status : Nat
  body : Json
deriving Repr

def errResp (status : Nat) (e d : String) : Resp :=
  ⟨status, .jobj [("error", .jstr e), ("error_description", .jstr d)]⟩

/-- The single configured OAuth2 client (`process.env.OAUTH_CLIENT_ID` /
`OAUTH_CLIENT_SECRET`), assumed configured as §3 of the spec states ("a
single configured OAuth2 client"). -/
structure Env where
  cid : String
  csec : String
deriving Repr, DecidableEq

/-- The claims the token route passes to `signToken`, built from the current
user/tenant row (`licensedModules || []`, `subscriptionTier || 'free'`). -/
def claimsOf (u : UserRec) : Claims :=
  ⟨u.id, u.tenantId, u.email, u.role, u.tenant.licensedModules.getD [],
    jsOrStr u.tenant.subscriptionTier "free"⟩

/-- `prisma.user.findUnique({ where: { id } })` applied to a JavaScript
value: a string id performs the lookup (which may itself reject);
`undefined` or any non-string id makes Prisma throw a validation error. -/
def dbFind (db : String → Except Unit (Option UserRec)) : Option Json →
    Except Unit (Option UserRec)
  | some (.jstr s) => db s
  | _ => .error ()

/-- String prefix test on characters (the semantics of
`String.startsWith` for the header checks below). -/
def strStartsWith (s pre : String) : Bool := pre.data.isPrefixOf s.data

/-! ## Token endpoint (`POST /api/oauth/token`)

Direct transcription of `src/app/api/oauth/token/route.ts`.  `sign` models
`signToken`, `db` models the Prisma user lookup (which may reject), `rnd`
models `crypto.randomBytes(32).toString('hex')`.  The result is the HTTP
response together with the final store keyspace.  A `.jnull` request body
makes the destructuring throw, landing in the outer `catch`. -/

/-- Refresh-token payload written to the store:
`JSON.stringify({ userId, tenantId, clientId: client_id })`; an `undefined`
`client_id` field is dropped by `JSON.stringify`. -/
def refreshPayload (u : UserRec) (client_id : Option Json) : Json :=
  .jobj ([("userId", .jstr u.id), ("tenantId", .jstr u.tenantId)] ++
    (match client_id with
     | some j => [("clientId", j)]
     | none => []))

/-- Success body of the authorization-code grant; the `scope` field is
`codeData.scope` and is dropped by serialization when `undefined`. -/
def codeGrantBody (token rnd : String) (scope : Option Json) : Json :=
  .jobj ([("access_token", .jstr token), ("token_type", .jstr "Bearer"),
    ("expires_in", .jnum 86400), ("refresh_token", .jstr rnd)] ++
    (match scope with
     | some j => [("scope", j)]
     | none => []))

def serverErrorResp : Resp :=
  errResp 500 "server_error" "An error occurred during token exchange"

def tokenPOST (env : Env) (sign : Claims → String)
    (db : String → Except Unit (Option UserRec)) (rnd : String)
    (ctx : CacheCtx) (body : Json) : Resp × Store :=
  match body with
  | .jnull => (serverErrorResp, ctx.store)
  | _ =>
    let grant_type := getPropJ body "grant_type"
    let code := getPropJ body "code"
    let redirect_uri := getPropJ body "redirect_uri"
    let client_id := getPropJ body "client_id"
    let client_secret := getPropJ body "client_secret"
    if jsStrictEq grant_type (some (.jstr "refresh_token")) then
      let refresh_token := getPropJ body "refresh_token"
      if !truthy refresh_token then
        (errResp 400 "invalid_request" "Refresh token is required", ctx.store)
      else if !jsStrictEq client_id (some (.jstr env.cid)) ||
          !jsStrictEq client_secret (some (.jstr env.csec)) then
        (errResp 401 "invalid_client" "Invalid client credentials", ctx.store)
      else
        let rKey := "oauth:refresh:" ++ jsTemplate refresh_token
        let refreshData := Cache.get ctx rKey
        if !truthy refreshData then
          (errResp 400 "invalid_grant" "Refresh token is invalid or expired", ctx.store)
        else
          match dbFind db (getProp refreshData "userId") with
          | .error _ => (serverErrorResp, ctx.store)
          | .ok none => (errResp 400 "invalid_grant" "User not found", ctx.store)
          | .ok (some user) =>
            let newToken := sign (claimsOf user)
            let store1 := Cache.delete ctx rKey
            let store2 := Cache.set { ctx with store := store1 }
              ("oauth:refresh:" ++ rnd)
              (.jstr (Json.jstringify (refreshPayload user client_id))) (some 2592000)
            (⟨200, .jobj [("access_token", .jstr newToken), ("token_type", .jstr "Bearer"),
              ("expires_in", .jnum 86400), ("refresh_token", .jstr rnd)]⟩, store2)
    else if !jsStrictEq grant_type (some (.jstr "authorization_code")) then
      (errResp 400 "unsupported_grant_type"
        "Only \"authorization_code\" and \"refresh_token\" grant types are supported",
        ctx.store)
    else if !jsStrictEq client_id (some (.jstr env.cid)) ||
        !jsStrictEq client_secret (some (.jstr env.csec)) then
      (errResp 401 "invalid_client" "Invalid client credentials", ctx.store)
    else if !truthy code then
      (errResp 400 "invalid_request" "Authorization code is required", ctx.store)
    else
      let cKey := "oauth:code:" ++ jsTemplate code
      let codeData := Cache.get ctx cKey
      if !truthy codeData then
        (errResp 400 "invalid_grant" "Authorization code is invalid or expired", ctx.store)
      else if !jsStrictEq redirect_uri (getProp codeData "redirectUri") then
        (errResp 400 "invalid_grant" "redirect_uri does not match", ctx.store)
      else
        let store1 := Cache.delete ctx cKey
        match dbFind db (getProp codeData "userId") with
        | .error _ => (serverErrorResp, store1)
        | .ok none => (errResp 400 "invalid_grant" "User not found", store1)
        | .ok (some user) =>
          let token := sign (claimsOf user)
          let store2 := Cache.set { ctx with store := store1 }
            ("oauth:refresh:" ++ rnd)
            (.jstr (Json.jstringify (refreshPayload user client_id))) (some 2592000)
          (⟨200, codeGrantBody token rnd (getProp codeData "scope")⟩, store2)

/-! ## Authorization endpoint (`GET /api/oauth/authorize`)

Transcription of the authorize route.  `verify` models `verifyToken` (throws
on an invalid or expired session token), `urlOk` models whether
`new URL(redirectUri)` succeeds, `code` models the freshly generated random
64-hex authorization code.  Every failure inside the inner `try` (invalid
session token, user lookup rejection, `User not found`, invalid redirect
URL) lands in the inner `catch`, which redirects to the login page. -/

structure AuthzReq where
  client_id : Option String
  redirect_uri : Option String
  response_type : Option String
  state : Option String
  scope : Option String
  cookieToken : Option String
deriving Repr, DecidableEq

inductive AuthzResult where
  | jsonRes (r : Resp)
  | loginRedirect
  | callbackRedirect (uri : String) (code : String) (state : Option String)
deriving Repr

/-- Authorization-code payload
`JSON.stringify({ userId, tenantId, redirectUri, clientId, scope })`; the
`clientId` written is the request's `client_id`, which the guard above it has
checked equal to the configured client id. -/
def authzCodePayload (u : UserRec) (redirectUri clientId scope : String) : Json :=
  .jobj [("userId", .jstr u.id), ("tenantId", .jstr u.tenantId),
    ("redirectUri", .jstr redirectUri), ("clientId", .jstr clientId),
    ("scope", .jstr scope)]

def authorizeGET (env : Env) (verify : String → Except Unit Claims)
    (db : String → Except Unit (Option UserRec)) (urlOk : String → Bool)
    (code : String) (ctx : CacheCtx) (req : AuthzReq) : AuthzResult × Store :=
  let scope := jsOrStr req.scope "openid profile email"
  if req.client_id ≠ some env.cid then
    (.jsonRes (errResp 400 "invalid_client" "Invalid client_id"), ctx.store)
  else if req.response_type ≠ some "code" then
    (.jsonRes (errResp 400 "unsupported_response_type"
      "Only \"code\" response type is supported"), ctx.store)
  else
    match req.redirect_uri with
    | none => (.jsonRes (errResp 400 "invalid_request" "redirect_uri is required"), ctx.store)
    | some redirectUri =>
      if redirectUri = "" then
        (.jsonRes (errResp 400 "invalid_request" "redirect_uri is required"), ctx.store)
      else
        match req.cookieToken with
        | none => (.loginRedirect, ctx.store)
        | some tok =>
          if tok = "" then (.loginRedirect, ctx.store)
          else
            match verify tok with
            | .error _ => (.loginRedirect, ctx.store)
            | .ok payload =>
              match db payload.userId with
              | .error _ => (.loginRedirect, ctx.store)
              | .ok none => (.loginRedirect, ctx.store)
              | .ok (some user) =>
                let store1 := Cache.set ctx ("oauth:code:" ++ code)
                  (.jstr (Json.jstringify (authzCodePayload user redirectUri env.cid scope)))
                  (some 300)
                if urlOk redirectUri then
                  (.callbackRedirect redirectUri code
                    (match req.state with
                     | some s => if s = "" then none else some s
                     | none => none), store1)
                else
                  (.loginRedirect, store1)

/-! ## UserInfo endpoint (`GET /api/oauth/userinfo`)

Transcription of the userinfo route.  The Prisma lookup sits inside the same
`try` as `verifyToken`, so a rejected lookup also surfaces as
`invalid_token`. -/

def userinfoGET (verify : String → Except Unit Claims)
    (db : String → Except Unit (Option UserRec)) (authHeader : Option String) : Resp :=
  match authHeader with
  | none => errResp 401 "unauthorized" "Missing or invalid authorization header"
  | some h =>
    if !strStartsWith h "Bearer " then
      errResp 401 "unauthorized" "Missing or invalid authorization header"
    else
      match verify (h.drop 7) with
      | .error _ => errResp 401 "invalid_token" "Invalid or expired token"
      | .ok payload =>
        match db payload.userId with
        | .error _ => errResp 401 "invalid_token" "Invalid or expired token"
        | .ok none => errResp 404 "user_not_found" "User not found"
        | .ok (some u) =>
          ⟨200, .jobj [("sub", .jstr u.id), ("email", .jstr u.email), ("name", .jstr u.name),
            ("email_verified", .jbool (u.emailVerified.getD false)),
            ("role", .jstr u.role), ("tenant_id", .jstr u.tenantId),
            ("tenant_name", .jstr u.tenant.name),
            ("tenant_subdomain", .jstr u.tenant.subdomain),
            ("licensed_modules", .jarr ((u.tenant.licensedModules.getD []).map .jstr)),
            ("subscription_tier", .jstr (jsOrStr u.tenant.subscriptionTier "free"))]⟩

/-! ## Store helper lemmas -/

theorem storeLookup_storePut (s : Store) (k : String) (e : StoreEntry) :
    storeLookup (storePut s k e) k = some e := by
  simp [storePut, storeLookup]

theorem storeLookup_storeErase (s : Store) (k : String) :
    storeLookup (storeErase s k) k = none := by
  induction s with
  | nil => rfl
  | cons p t ih =>
    obtain ⟨k', e⟩ := p
    by_cases h : k' = k
    · simp [storeErase, h, ih]
    · simp [storeErase, h, storeLookup, ih]

theorem stringify_ne_empty (j : Json) : Json.jstringify j ≠ "" := by
  obtain ⟨c, cs, hc, -, -⟩ := sj_head j
  simp only [Json.jstringify, hc]
  intro h
  have : (String.mk (c :: cs)).data = ("" : String).data := by rw [h]
  simp at this

/-! ## Concrete fixtures

A configured client, one tenant and user, a session token verifier, and the
request data of the specification's §8 scenario, used by the concrete
evaluations below. -/

def envD : Env := ⟨"client-1", "secret-1"⟩

def tenantD : TenantRec := ⟨"Acme", "acme", some ["crm", "billing"], some "pro"⟩

def userD : UserRec := ⟨"u1", "u1@acme.test", "User One", "admin", some true, "t1", tenantD⟩

def dbD : String → Except Unit (Option UserRec) := fun id =>
  if id = "u1" then .ok (some userD) else .ok none

def signD : Claims → String := fun c => "tok." ++ c.userId ++ "." ++ c.tenantId

def verifyD : String → Except Unit Claims := fun t =>
  if t = "sess1" then .ok (claimsOf userD) else .error ()

def urlOkD : String → Bool := fun u => strStartsWith u "https://"

def reqD : AuthzReq :=
  ⟨some "client-1", some "https://m.example.com/cb", some "code", some "xyz", none, some "sess1"⟩

/-- Authorize run of the §8 scenario: issues code `c0de` into an empty store
at t = 1000 s. -/
def authzOutD : AuthzResult × Store :=
  authorizeGET envD verifyD dbD urlOkD "c0de" (mkCtx [] 1000) reqD

/-- Happy-path exchange request: same code, same redirect_uri, configured
credentials. -/
def happyBodyD : Json :=
  .jobj [("grant_type", .jstr "authorization_code"), ("code", .jstr "c0de"),
    ("redirect_uri", .jstr "https://m.example.com/cb"), ("client_id", .jstr "client-1"),
    ("client_secret", .jstr "secret-1")]

/-- The same exchange request with the `redirect_uri` field omitted. -/
def noRedirBodyD : Json :=
  .jobj [("grant_type", .jstr "authorization_code"), ("code", .jstr "c0de"),
    ("client_id", .jstr "client-1"), ("client_secret", .jstr "secret-1")]

def tokOut1D : Resp × Store := tokenPOST envD signD dbD "refresh1" (mkCtx authzOutD.2 1060) happyBodyD

def tokOut2D : Resp × Store := tokenPOST envD signD dbD "refresh2" (mkCtx tokOut1D.2 1070) noRedirBodyD

/-! ## Claim C1 -/

/-- C1: the happy-path code exchange does NOT return 200.  The authorize
endpoint issues the code and redirects, but because both OAuth routes pass an
already-`JSON.stringify`-ed string into `Cache.set` (which stringifies
again), `Cache.get` returns the payload as a JSON *string*; string values
have no `redirectUri` property, so the route compares the presented
redirect_uri against `undefined` and rejects the exchange with
`invalid_grant` ("redirect_uri does not match") instead of issuing tokens. -/
theorem C1_happy_path_exchange_rejected :
    authzOutD.1 = .callbackRedirect "https://m.example.com/cb" "c0de" (some "xyz") ∧
    tokOut1D.1 = errResp 400 "invalid_grant" "redirect_uri does not match" :=
  ⟨rfl, rfl⟩

/-! ## Claim C2 -/

/-- C2: single-use fails as stated.  After the first (failed) presentation of
the code the store still contains it, and a second presentation of the same
code with the `redirect_uri` field omitted passes the redirect comparison
(`undefined === undefined`), deletes the code, and then throws inside the
Prisma lookup (`id: undefined`), answering 500 `server_error` — not
`invalid_grant` as the claim requires; no presentation of an
authorize-issued code can succeed at all. -/
theorem C2_reuse_not_invalid_grant :
    tokOut1D.1 = errResp 400 "invalid_grant" "redirect_uri does not match" ∧
    tokOut1D.2 = authzOutD.2 ∧
    tokOut2D.1 = serverErrorResp ∧
    tokOut2D.2 = [] :=
  ⟨rfl, rfl, rfl, rfl⟩

/-! ## Claim C3 -/

/-- C3 counterexample: an exchange that fails `invalid_grant` on the
redirect_uri comparison leaves the code in the store — the claim's "the code
is no longer present in the store" is false. -/
theorem C3_counterexample_code_still_present :
    tokOut1D.1 = errResp 400 "invalid_grant" "redirect_uri does not match" ∧
    (storeLookup tokOut1D.2 "oauth:code:c0de").isSome = true :=
  ⟨rfl, rfl⟩

/-- C3 amended: in the authorization_code grant the delete happens only
after the redirect_uri comparison passes; an exchange that fails
`invalid_grant` because of a redirect_uri mismatch returns with the store
unchanged, so the code is still present. -/
theorem C3_mismatch_leaves_store (env : Env) (sign : Claims → String)
    (db : String → Except Unit (Option UserRec)) (rnd : String) (ctx : CacheCtx)
    (c ru : String) (hc : c ≠ "")
    (hget : truthy (Cache.get ctx ("oauth:code:" ++ c)) = true)
    (hmis : jsStrictEq (some (.jstr ru))
      (getProp (Cache.get ctx ("oauth:code:" ++ c)) "redirectUri") = false) :
    tokenPOST env sign db rnd ctx (.jobj [("grant_type", .jstr "authorization_code"),
      ("code", .jstr c), ("redirect_uri", .jstr ru),
      ("client_id", .jstr env.cid), ("client_secret", .jstr env.csec)]) =
    (errResp 400 "invalid_grant" "redirect_uri does not match", ctx.store) := by
  have g1 : getPropJ (Json.jobj [("grant_type", Json.jstr "authorization_code"),
      ("code", Json.jstr c), ("redirect_uri", Json.jstr ru),
      ("client_id", Json.jstr env.cid), ("client_secret", Json.jstr env.csec)]) "grant_type" = some (Json.jstr "authorization_code") := rfl
  have g2 : getPropJ (Json.jobj [("grant_type", Json.jstr "authorization_code"),
      ("code", Json.jstr c), ("redirect_uri", Json.jstr ru),
      ("client_id", Json.jstr env.cid), ("client_secret", Json.jstr env.csec)]) "code" = some (Json.jstr c) := rfl
  have g3 : getPropJ (Json.jobj [("grant_type", Json.jstr "authorization_code"),
      ("code", Json.jstr c), ("redirect_uri", Json.jstr ru),
      ("client_id", Json.jstr env.cid), ("client_secret", Json.jstr env.csec)]) "redirect_uri" = some (Json.jstr ru) := rfl
  have g4 : getPropJ (Json.jobj [("grant_type", Json.jstr "authorization_code"),
      ("code", Json.jstr c), ("redirect_uri", Json.jstr ru),
      ("client_id", Json.jstr env.cid), ("client_secret", Json.jstr env.csec)]) "client_id" = some (Json.jstr env.cid) := rfl
  have g5 : getPropJ (Json.jobj [("grant_type", Json.jstr "authorization_code"),
      ("code", Json.jstr c), ("redirect_uri", Json.jstr ru),
      ("client_id", Json.jstr env.cid), ("client_secret", Json.jstr env.csec)]) "client_secret" = some (Json.jstr env.csec) := rfl
  have e1 : jsStrictEq (some (Json.jstr "authorization_code"))
      (some (Json.jstr "refresh_token")) = false := rfl
  have e2 : jsStrictEq (some (Json.jstr "authorization_code"))
      (some (Json.jstr "authorization_code")) = true := rfl
  have e3 : jsStrictEq (some (Json.jstr env.cid)) (some (Json.jstr env.cid)) = true := by
    simp [jsStrictEq, primEq]
  have e4 : jsStrictEq (some (Json.jstr env.csec)) (some (Json.jstr env.csec)) = true := by
    simp [jsStrictEq, primEq]
  have e5 : truthy (some (Json.jstr c)) = true := by simp [truthy, hc]
  have e6 : jsTemplate (some (Json.jstr c)) = c := rfl
  simp only [tokenPOST, g1, g2, g3, g4, g5, e1, e2, e3, e4, e5, e6, hget, hmis]
  simp

/-- Witness for C3 at the fixture: code `c0de` as stored by authorize,
presented with redirect_uri "B". -/
theorem C3_mismatch_leaves_store_witness :
    tokenPOST envD signD dbD "r1" (mkCtx authzOutD.2 1060)
      (.jobj [("grant_type", .jstr "authorization_code"), ("code", .jstr "c0de"),
        ("redirect_uri", .jstr "B"), ("client_id", .jstr "client-1"),
        ("client_secret", .jstr "secret-1")]) =
    (errResp 400 "invalid_grant" "redirect_uri does not match", authzOutD.2) :=
  C3_mismatch_leaves_store envD signD dbD "r1" (mkCtx authzOutD.2 1060) "c0de" "B"
    (by decide) (by rfl) (by rfl)

/-! ## Claim C4 -/

def dbFailD : String → Except Unit (Option UserRec) := fun _ => .error ()

def ctxSetFailD : CacheCtx := { mkCtx [] 1000 with setFails := fun _ => true }

/-- C4 counterexample: with the store write failing (connection refused;
`Cache.set` swallows the error), authorize still redirects to the
caller-supplied redirect_uri carrying a code that is in no store — and an
identity-lookup failure produces a login redirect, not a 500 `server_error`.
-/
theorem C4_counterexample_redirect_without_store :
    (authorizeGET envD verifyD dbD urlOkD "c0de" ctxSetFailD reqD).1 =
      .callbackRedirect "https://m.example.com/cb" "c0de" (some "xyz") ∧
    (authorizeGET envD verifyD dbD urlOkD "c0de" ctxSetFailD reqD).2 = [] ∧
    (authorizeGET envD verifyD dbFailD urlOkD "c0de" (mkCtx [] 1000) reqD).1 =
      .loginRedirect :=
  ⟨rfl, rfl, rfl⟩

/-- C4 amended: `Cache.set` never reports failure, so a failed store write
still ends in a redirect to the caller-supplied redirect_uri carrying the
unstored code; a failed session verification or identity lookup ends in a
redirect to the login page; neither failure produces `server_error`/500. -/
theorem C4_authorize_failure_modes :
    (∀ (env : Env) (verify : String → Except Unit Claims)
      (db : String → Except Unit (Option UserRec)) (urlOk : String → Bool)
      (code : String) (ctx : CacheCtx) (req : AuthzReq)
      (redirectUri tok : String) (payload : Claims) (user : UserRec),
      req.client_id = some env.cid →
      req.response_type = some "code" →
      req.redirect_uri = some redirectUri → redirectUri ≠ "" →
      req.cookieToken = some tok → tok ≠ "" →
      verify tok = .ok payload →
      db payload.userId = .ok (some user) →
      ctx.setFails ("oauth:code:" ++ code) = true →
      urlOk redirectUri = true →
      authorizeGET env verify db urlOk code ctx req =
        (.callbackRedirect redirectUri code
          (match req.state with
           | some s => if s = "" then none else some s
           | none => none), ctx.store)) ∧
    (∀ (env : Env) (verify : String → Except Unit Claims)
      (db : String → Except Unit (Option UserRec)) (urlOk : String → Bool)
      (code : String) (ctx : CacheCtx) (req : AuthzReq) (redirectUri tok : String),
      req.client_id = some env.cid →
      req.response_type = some "code" →
      req.redirect_uri = some redirectUri → redirectUri ≠ "" →
      req.cookieToken = some tok → tok ≠ "" →
      (verify tok = .error () ∨
        (∃ p, verify tok = .ok p ∧ db p.userId = .error ()) ∨
        (∃ p, verify tok = .ok p ∧ db p.userId = .ok none)) →
      (authorizeGET env verify db urlOk code ctx req).1 = .loginRedirect) := by
  constructor
  · intro env verify db urlOk code ctx req redirectUri tok payload user
      hcid hrt hru hrune htok htokne hv hdb hsf hurl
    simp only [authorizeGET, hcid, hrt, hru, htok, hv, hdb, Cache.set, hsf]
    simp [hrune, htokne, hurl]
  · intro env verify db urlOk code ctx req redirectUri tok
      hcid hrt hru hrune htok htokne hfail
    rcases hfail with hv | ⟨p, hv, hdb⟩ | ⟨p, hv, hdb⟩
    · simp only [authorizeGET, hcid, hrt, hru, htok, hv]
      simp [hrune, htokne]
    · simp only [authorizeGET, hcid, hrt, hru, htok, hv, hdb]
      simp [hrune, htokne]
    · simp only [authorizeGET, hcid, hrt, hru, htok, hv, hdb]
      simp [hrune, htokne]

/-- Witness for C4 at the fixtures: a failing write with the §8 scenario
request, and a rejecting user lookup. -/
theorem C4_authorize_failure_modes_witness :
    authorizeGET envD verifyD dbD urlOkD "c0de" ctxSetFailD reqD =
      (.callbackRedirect "https://m.example.com/cb" "c0de" (some "xyz"), []) ∧
    (authorizeGET envD verifyD dbFailD urlOkD "c0de" (mkCtx [] 1000) reqD).1 =
      .loginRedirect := by
  constructor
  · exact C4_authorize_failure_modes.1 envD verifyD dbD urlOkD "c0de" ctxSetFailD reqD
      "https://m.example.com/cb" "sess1" (claimsOf userD) userD rfl rfl rfl (by decide)
      rfl (by decide) rfl rfl rfl rfl
  · exact C4_authorize_failure_modes.2 envD verifyD dbFailD urlOkD "c0de" (mkCtx [] 1000)
      reqD "https://m.example.com/cb" "sess1" rfl rfl rfl (by decide) rfl (by decide)
      (Or.inr (Or.inl ⟨claimsOf userD, rfl, rfl⟩))

/-! ## Claim C5 -/

/-- A code entry as the token endpoint expects it (single serialization),
reachable only by writing to the store outside the authorize route. -/
def goodStoreD : Store :=
  [("oauth:code:cgood",
    ⟨Json.jstringify (authzCodePayload userD "https://m.example.com/cb" "client-1" "openid"),
      some 1300⟩)]

def happyBody2D : Json :=
  .jobj [("grant_type", .jstr "authorization_code"), ("code", .jstr "cgood"),
    ("redirect_uri", .jstr "https://m.example.com/cb"), ("client_id", .jstr "client-1"),
    ("client_secret", .jstr "secret-1")]

/-- Exchange of the handcrafted code: the one reachable 200 path, issuing
refresh token `refA` (store-written by the route itself, double-serialized). -/
def tokOut3D : Resp × Store :=
  tokenPOST envD signD dbD "refA" (mkCtx goodStoreD 1100) happyBody2D

def refreshBodyD : Json :=
  .jobj [("grant_type", .jstr "refresh_token"), ("refresh_token", .jstr "refA"),
    ("client_id", .jstr "client-1"), ("client_secret", .jstr "secret-1")]

def tokOut4D : Resp × Store :=
  tokenPOST envD signD dbD "refB" (mkCtx tokOut3D.2 1200) refreshBodyD

/-- C5: no refresh exchange ever succeeds, so rotation never happens.  Even
when a code exchange is made to succeed (handcrafted single-serialized code
payload in the store), the refresh token the route then writes is
double-serialized: presenting it makes the refresh payload deserialize to a
string, `refreshData.userId` is `undefined`, the Prisma lookup throws, and
the endpoint answers 500 `server_error` — and the presented refresh token is
not deleted either (the delete sits after the lookup). -/
theorem C5_refresh_never_succeeds :
    tokOut3D.1.status = 200 ∧
    (storeLookup tokOut3D.2 "oauth:refresh:refA").isSome = true ∧
    tokOut4D.1 = serverErrorResp ∧
    (storeLookup tokOut4D.2 "oauth:refresh:refA").isSome = true :=
  ⟨rfl, rfl, rfl, rfl⟩

/-! ## Claim C6 -/

/-- Refresh-grant request with no `refresh_token` and a wrong client id. -/
def c6BodyD : Json := .jobj [("grant_type", .jstr "refresh_token"), ("client_id", .jstr "evil")]

/-- C6 counterexample: grant_type=refresh_token with the refresh_token
parameter missing AND mismatched client credentials fails with
`invalid_request` (400), not `invalid_client` (401): the route checks the
parameter's presence before the credentials. -/
theorem C6_counterexample_presence_before_creds :
    tokenPOST envD signD dbD "r" (mkCtx [] 0) c6BodyD =
      (errResp 400 "invalid_request" "Refresh token is required", []) := rfl

/-- C6 amended: in the refresh_token grant the presence of `refresh_token`
is validated before the client credentials; whenever the field is falsy the
endpoint answers `invalid_request` (400) regardless of the credentials. -/
theorem C6_refresh_presence_checked_first (env : Env) (sign : Claims → String)
    (db : String → Except Unit (Option UserRec)) (rnd : String) (ctx : CacheCtx)
    (fs : List (String × Json))
    (hgt : lookupField fs "grant_type" = some (.jstr "refresh_token"))
    (hrt : truthy (lookupField fs "refresh_token") = false) :
    tokenPOST env sign db rnd ctx (.jobj fs) =
      (errResp 400 "invalid_request" "Refresh token is required", ctx.store) := by
  have g1 : getPropJ (.jobj fs) "grant_type" = some (Json.jstr "refresh_token") := hgt
  have g2 : truthy (getPropJ (.jobj fs) "refresh_token") = false := hrt
  have e1 : jsStrictEq (some (Json.jstr "refresh_token"))
      (some (Json.jstr "refresh_token")) = true := rfl
  simp only [tokenPOST, g1, g2, e1]
  simp

/-- Witness for C6 at the fixture request. -/
theorem C6_refresh_presence_checked_first_witness :
    tokenPOST envD signD dbD "r2" (mkCtx [] 5) c6BodyD =
      (errResp 400 "invalid_request" "Refresh token is required", []) :=
  C6_refresh_presence_checked_first envD signD dbD "r2" (mkCtx [] 5)
    [("grant_type", .jstr "refresh_token"), ("client_id", .jstr "evil")] rfl rfl

/-! ## Claim C7 -/

theorem cacheGet_expired (st : Store) (t0 now ttl : Nat) (k : String) (v : Json)
    (hnow : t0 + ttl ≤ now) :
    Cache.get (mkCtx (Cache.set (mkCtx st t0) k v (some ttl)) now) k = none := by
  have hlive : entryLive ⟨Json.jstringify v, some (t0 + ttl)⟩ now = false := by
    simp only [entryLive, decide_eq_false_iff_not]
    omega
  simp only [Cache.get, Cache.set, mkCtx]
  simp [storeLookup_storePut, hlive]

theorem cacheGet_absent (st : Store) (now : Nat) (k : String)
    (h : storeLookup st k = none) :
    Cache.get (mkCtx st now) k = none := by
  simp [Cache.get, mkCtx, h]

/-- Shared helper: when the store read for the presented code yields `null`,
the authorization_code grant fails `invalid_grant` with the store unchanged.
-/
theorem tokenPOST_code_absent (env : Env) (sign : Claims → String)
    (db : String → Except Unit (Option UserRec)) (rnd : String) (ctx : CacheCtx)
    (c ru : String) (hc : c ≠ "")
    (hget : Cache.get ctx ("oauth:code:" ++ c) = none) :
    tokenPOST env sign db rnd ctx (.jobj [("grant_type", .jstr "authorization_code"),
      ("code", .jstr c), ("redirect_uri", .jstr ru),
      ("client_id", .jstr env.cid), ("client_secret", .jstr env.csec)]) =
    (errResp 400 "invalid_grant" "Authorization code is invalid or expired", ctx.store) := by
  have g1 : getPropJ (Json.jobj [("grant_type", Json.jstr "authorization_code"),
      ("code", Json.jstr c), ("redirect_uri", Json.jstr ru),
      ("client_id", Json.jstr env.cid), ("client_secret", Json.jstr env.csec)]) "grant_type" =
      some (Json.jstr "authorization_code") := rfl
  have g2 : getPropJ (Json.jobj [("grant_type", Json.jstr "authorization_code"),
      ("code", Json.jstr c), ("redirect_uri", Json.jstr ru),
      ("client_id", Json.jstr env.cid), ("client_secret", Json.jstr env.csec)]) "code" =
      some (Json.jstr c) := rfl
  have g4 : getPropJ (Json.jobj [("grant_type", Json.jstr "authorization_code"),
      ("code", Json.jstr c), ("redirect_uri", Json.jstr ru),
      ("client_id", Json.jstr env.cid), ("client_secret", Json.jstr env.csec)]) "client_id" =
      some (Json.jstr env.cid) := rfl
  have g5 : getPropJ (Json.jobj [("grant_type", Json.jstr "authorization_code"),
      ("code", Json.jstr c), ("redirect_uri", Json.jstr ru),
      ("client_id", Json.jstr env.cid), ("client_secret", Json.jstr env.csec)]) "client_secret" =
      some (Json.jstr env.csec) := rfl
  have e1 : jsStrictEq (some (Json.jstr "authorization_code"))
      (some (Json.jstr "refresh_token")) = false := rfl
  have e2 : jsStrictEq (some (Json.jstr "authorization_code"))
      (some (Json.jstr "authorization_code")) = true := rfl
  have e3 : jsStrictEq (some (Json.jstr env.cid)) (some (Json.jstr env.cid)) = true := by
    simp [jsStrictEq, primEq]
  have e4 : jsStrictEq (some (Json.jstr env.csec)) (some (Json.jstr env.csec)) = true := by
    simp [jsStrictEq, primEq]
  have e5 : truthy (some (Json.jstr c)) = true := by simp [truthy, hc]
  have e6 : jsTemplate (some (Json.jstr c)) = c := rfl
  simp only [tokenPOST, g1, g2, g4, g5, e1, e2, e3, e4, e5, e6, hget]
  simp [truthy]

/-- C7: a code presented after its 300-second TTL has elapsed is absent for
`Cache.get` exactly like a never-written code, and the token endpoint's
response is the identical `invalid_grant` body in both cases, with the store
left unchanged. -/
theorem C7_expired_equals_absent (env : Env) (sign : Claims → String)
    (db : String → Except Unit (Option UserRec)) (rnd : String)
    (st : Store) (t0 now : Nat) (c ru : String) (v : Json)
    (hc : c ≠ "") (hnow : t0 + 300 ≤ now) :
    Cache.get (mkCtx (Cache.set (mkCtx st t0) ("oauth:code:" ++ c) v (some 300)) now)
      ("oauth:code:" ++ c) = none ∧
    Cache.get (mkCtx (storeErase st ("oauth:code:" ++ c)) now) ("oauth:code:" ++ c) = none ∧
    tokenPOST env sign db rnd
      (mkCtx (Cache.set (mkCtx st t0) ("oauth:code:" ++ c) v (some 300)) now)
      (.jobj [("grant_type", .jstr "authorization_code"), ("code", .jstr c),
        ("redirect_uri", .jstr ru), ("client_id", .jstr env.cid),
        ("client_secret", .jstr env.csec)]) =
      (errResp 400 "invalid_grant" "Authorization code is invalid or expired",
        Cache.set (mkCtx st t0) ("oauth:code:" ++ c) v (some 300)) ∧
    tokenPOST env sign db rnd (mkCtx (storeErase st ("oauth:code:" ++ c)) now)
      (.jobj [("grant_type", .jstr "authorization_code"), ("code", .jstr c),
        ("redirect_uri", .jstr ru), ("client_id", .jstr env.cid),
        ("client_secret", .jstr env.csec)]) =
      (errResp 400 "invalid_grant" "Authorization code is invalid or expired",
        storeErase st ("oauth:code:" ++ c)) := by
  have h1 := cacheGet_expired st t0 now 300 ("oauth:code:" ++ c) v hnow
  have h2 := cacheGet_absent (storeErase st ("oauth:code:" ++ c)) now ("oauth:code:" ++ c)
    (storeLookup_storeErase st ("oauth:code:" ++ c))
  exact ⟨h1, h2,
    tokenPOST_code_absent env sign db rnd _ c ru hc h1,
    tokenPOST_code_absent env sign db rnd _ c ru hc h2⟩

/-- Witness for C7: the scenario code expired at t = 1400 s. -/
theorem C7_expired_equals_absent_witness :
    Cache.get (mkCtx (Cache.set (mkCtx [] 1000) "oauth:code:c0de"
      (.jstr "payload") (some 300)) 1400) "oauth:code:c0de" = none ∧
    tokenPOST envD signD dbD "r7"
      (mkCtx (Cache.set (mkCtx [] 1000) "oauth:code:c0de" (.jstr "payload") (some 300)) 1400)
      (.jobj [("grant_type", .jstr "authorization_code"), ("code", .jstr "c0de"),
        ("redirect_uri", .jstr "https://m.example.com/cb"), ("client_id", .jstr "client-1"),
        ("client_secret", .jstr "secret-1")]) =
      (errResp 400 "invalid_grant" "Authorization code is invalid or expired",
        Cache.set (mkCtx [] 1000) "oauth:code:c0de" (.jstr "payload") (some 300)) := by
  have h := C7_expired_equals_absent envD signD dbD "r7" [] 1000 1400 "c0de"
    "https://m.example.com/cb" (.jstr "payload") (by decide) (by omega)
  exact ⟨h.1, h.2.2.1⟩

/-! ## Claim C8 -/

/-- C8: for a valid bearer session token, the licensed_modules and
subscription_tier in the userinfo response come from the current user/tenant
row in the backing store; the claims embedded in the token (`payload`,
including its `licensedModules` and `subscriptionTier`) are arbitrary here
and do not occur in the response. -/
theorem C8_userinfo_reads_current_tenant (verify : String → Except Unit Claims)
    (db : String → Except Unit (Option UserRec)) (authHeader : String)
    (payload : Claims) (user : UserRec)
    (hs : strStartsWith authHeader "Bearer " = true)
    (hv : verify (authHeader.drop 7) = .ok payload)
    (hdb : db payload.userId = .ok (some user)) :
    userinfoGET verify db (some authHeader) =
      ⟨200, .jobj [("sub", .jstr user.id), ("email", .jstr user.email),
        ("name", .jstr user.name),
        ("email_verified", .jbool (user.emailVerified.getD false)),
        ("role", .jstr user.role), ("tenant_id", .jstr user.tenantId),
        ("tenant_name", .jstr user.tenant.name),
        ("tenant_subdomain", .jstr user.tenant.subdomain),
        ("licensed_modules", .jarr ((user.tenant.licensedModules.getD []).map .jstr)),
        ("subscription_tier", .jstr (jsOrStr user.tenant.subscriptionTier "free"))]⟩ := by
  simp only [userinfoGET, hs, hv, hdb]
  simp

/-- A verifier whose token embeds stale licensing claims for u1. -/
def verifyStaleD : String → Except Unit Claims := fun t =>
  if t = "sess1" then .ok ⟨"u1", "t1", "u1@acme.test", "admin", ["stale-module"], "basic"⟩
  else .error ()

theorem C8_userinfo_reads_current_tenant_witness :
    userinfoGET verifyStaleD dbD (some "Bearer sess1") =
      ⟨200, .jobj [("sub", .jstr "u1"), ("email", .jstr "u1@acme.test"),
        ("name", .jstr "User One"), ("email_verified", .jbool true),
        ("role", .jstr "admin"), ("tenant_id", .jstr "t1"),
        ("tenant_name", .jstr "Acme"), ("tenant_subdomain", .jstr "acme"),
        ("licensed_modules", .jarr [.jstr "crm", .jstr "billing"]),
        ("subscription_tier", .jstr "pro")]⟩ :=
  C8_userinfo_reads_current_tenant verifyStaleD dbD "Bearer sess1"
    ⟨"u1", "t1", "u1@acme.test", "admin", ["stale-module"], "basic"⟩ userD
    (by rfl) (by rfl) (by rfl)

/-! ## Claim C9 -/

/-- C9: `Cache.get` resolves to `null` on a backend error and on any store
read slower than the 100 ms race timer (it is a total function, never
throwing), so the token endpoint answers `invalid_grant` for a code that is
present and unexpired in the store whenever the read is slow. -/
theorem C9_slow_read_reports_absent :
    (∀ (ctx : CacheCtx) (k : String), ctx.getError k = true → Cache.get ctx k = none) ∧
    (∀ (ctx : CacheCtx) (k : String), 100 < ctx.getLatency k → Cache.get ctx k = none) ∧
    (∀ (env : Env) (sign : Claims → String) (db : String → Except Unit (Option UserRec))
      (rnd : String) (ctx : CacheCtx) (c ru : String) (e : StoreEntry),
      c ≠ "" → 100 < ctx.getLatency ("oauth:code:" ++ c) →
      storeLookup ctx.store ("oauth:code:" ++ c) = some e →
      entryLive e ctx.now = true →
      tokenPOST env sign db rnd ctx (.jobj [("grant_type", .jstr "authorization_code"),
        ("code", .jstr c), ("redirect_uri", .jstr ru),
        ("client_id", .jstr env.cid), ("client_secret", .jstr env.csec)]) =
        (errResp 400 "invalid_grant" "Authorization code is invalid or expired",
          ctx.store)) := by
  refine ⟨?_, ?_, ?_⟩
  · intro ctx k herr
    by_cases hl : 100 < ctx.getLatency k <;> simp [Cache.get, hl, herr]
  · intro ctx k hl
    simp [Cache.get, hl]
  · intro env sign db rnd ctx c ru e hc hl hpresent hlive
    exact tokenPOST_code_absent env sign db rnd ctx c ru hc (by simp [Cache.get, hl])

def slowCtxD : CacheCtx :=
  { mkCtx [("oauth:code:c0de", ⟨"payload", none⟩)] 0 with getLatency := fun _ => 250 }

theorem C9_slow_read_reports_absent_witness :
    Cache.get { mkCtx [] 0 with getError := fun _ => true } "k" = none ∧
    Cache.get slowCtxD "oauth:code:c0de" = none ∧
    tokenPOST envD signD dbD "r9" slowCtxD
      (.jobj [("grant_type", .jstr "authorization_code"), ("code", .jstr "c0de"),
        ("redirect_uri", .jstr "https://m.example.com/cb"), ("client_id", .jstr "client-1"),
        ("client_secret", .jstr "secret-1")]) =
      (errResp 400 "invalid_grant" "Authorization code is invalid or expired",
        [("oauth:code:c0de", ⟨"payload", none⟩)]) :=
  ⟨C9_slow_read_reports_absent.1 _ "k" rfl,
   C9_slow_read_reports_absent.2.1 slowCtxD "oauth:code:c0de" (by decide),
   C9_slow_read_reports_absent.2.2 envD signD dbD "r9" slowCtxD "c0de"
     "https://m.example.com/cb" ⟨"payload", none⟩ (by decide) (by decide) rfl rfl⟩

/-! ## Claim C10 -/

/-- C10: `Cache.set` followed by `Cache.get` on the same key, before the TTL
elapses, with no intervening write or delete and no backend fault, returns
the stored value: `JSON.parse` inverts `JSON.stringify`. -/
theorem C10_cache_roundtrip (st : Store) (t0 now2 : Nat) (k : String) (v : Json)
    (ttl : Nat) (_h1 : 0 < ttl) (h2 : now2 < t0 + ttl) :
    Cache.get (mkCtx (Cache.set (mkCtx st t0) k v (some ttl)) now2) k = some v := by
  have hlive : entryLive ⟨Json.jstringify v, some (t0 + ttl)⟩ now2 = true := by
    simp only [entryLive, decide_eq_true_eq]
    omega
  simp only [Cache.get, Cache.set, mkCtx]
  simp [storeLookup_storePut, hlive, stringify_ne_empty v, parse_stringify]

theorem C10_cache_roundtrip_witness :
    Cache.get (mkCtx (Cache.set (mkCtx [] 0) "k"
      (.jobj [("a", .jnum 1), ("b", .jstr "x")]) (some 300)) 100) "k" =
      some (.jobj [("a", .jnum 1), ("b", .jstr "x")]) :=
  C10_cache_roundtrip [] 0 100 "k" (.jobj [("a", .jnum 1), ("b", .jstr "x")]) 300
    (by decide) (by decide)
